import Mathlib

/-
Verification development for the SOF heap allocator (src/lib/alloc.c).

The embedding below models the allocator state and operations as pure Lean
functions.  Addresses, sizes and counters are modelled as `Nat`; all concrete
scenarios considered keep every counter far from any machine-word bound, so
the `Nat` arithmetic agrees with the C unsigned arithmetic on them.
The release configuration is modelled (CONFIG_DEBUG_BLOCK_FREE and
CONFIG_DEBUG_HEAP disabled), matching the default build.
A fatal condition (a call into the global fault handler, which does not
return) is modelled as `Except.error ()`; the body of a function after such a
call is unreachable, exactly as in the source.
The global spinlock makes every public entry point atomic; the public entry
points are therefore modelled by their `_unlocked` bodies.
-/

/-- Modelled from the spec: the per-block header declared in sof/alloc.h
(the header file itself is not part of the sources at hand; its fields are
fixed by the spec's data model and by every use in alloc.c): `size` is the
number of contiguous block slots the allocation spans (0 if free), `used` is
the occupancy flag (0 = free, nonzero = used). -/
structure block_hdr where
  size : Nat
  used : Nat
deriving DecidableEq

instance : Inhabited block_hdr := ⟨⟨0, 0⟩⟩

/-- Modelled from the spec: one pool of equally sized blocks inside a heap,
as declared in sof/alloc.h and used throughout alloc.c. `block` is the
per-slot header array (of length `count` in every well-formed state). -/
structure block_map where
  block_size : Nat
  count : Nat
  free_count : Nat
  first_free : Nat
  base : Nat
  block : List block_hdr
deriving DecidableEq

instance : Inhabited block_map := ⟨⟨0, 0, 0, 0, 0, []⟩⟩

/-- Aggregate byte counters of a heap (struct mm_info). -/
structure mm_info where
  used : Nat
  free : Nat
deriving DecidableEq

instance : Inhabited mm_info := ⟨⟨0, 0⟩⟩

/-- Modelled from the spec: a heap descriptor (struct mm_heap).  The C field
`blocks` (number of block maps) is represented by `map.length`; alloc.c only
ever uses it as the iteration bound over `map[]`. -/
structure mm_heap where
  heap : Nat
  size : Nat
  caps : Nat
  map : List block_map
  info : mm_info
deriving DecidableEq

instance : Inhabited mm_heap := ⟨⟨0, 0, 0, [], ⟨0, 0⟩⟩⟩

/-- The heap registry (struct mm / `memmap`).  `system`, `system_runtime` are
indexed by core id; `runtime` and `buffer` are the shared arrays, whose
lengths play the role of PLATFORM_HEAP_RUNTIME / PLATFORM_HEAP_BUFFER.
`mem` models the byte contents of the address space. -/
structure MM where
  system : List mm_heap
  system_runtime : List mm_heap
  runtime : List mm_heap
  buffer : List mm_heap
  heap_trace_updated : Bool
  mem : Nat → Nat

instance : Inhabited MM := ⟨⟨[], [], [], [], false, fun _ => 0⟩⟩

/-- Allocation zone type (RZONE_SYS / RZONE_SYS_RUNTIME / RZONE_RUNTIME and
the default arm of the switch in _malloc_unlocked). -/
inductive ZType where
  | sys
  | sysRuntime
  | runtime
  | invalid
deriving DecidableEq

/-- A zone argument: its type bits together with the RZONE_FLAG_UNCACHED
flag bit. -/
structure Zone where
  ztype : ZType
  uncached : Bool
deriving DecidableEq

/-- Modelled from the spec: PLATFORM_DCACHE_ALIGN, a platform constant
(64-byte cache lines on the reference platforms); none of the verified
properties depend on its value. -/
def PLATFORM_DCACHE_ALIGN : Nat := 64

/-- Modelled from the spec: the cached/uncached address aliasing is a
platform primitive outside the allocator; on a single-image target it is the
identity translation, which is how it is modelled here. -/
def cache_to_uncache (p : Nat) : Nat := p

/-- Modelled from the spec: see cache_to_uncache. -/
def uncache_to_cache (p : Nat) : Nat := p

/-- Modelled from the spec: see cache_to_uncache; with identity aliasing no
address is an uncached alias. -/
def is_uncached (_p : Nat) : Bool := false

/-- Apply the RZONE_FLAG_UNCACHED translation to a returned pointer. -/
def zone_xlate (zone : Zone) (p : Nat) : Nat :=
  if zone.uncached then cache_to_uncache p else p

/-- memcpy_s(dest, bytes, src, bytes) as used by _realloc/_brealloc. -/
def mm_memcpy (mm : MM) (dest src n : Nat) : MM :=
  { mm with mem := fun a => if dest ≤ a ∧ a < dest + n then mm.mem (src + (a - dest)) else mm.mem a }

/-- bzero(ptr, bytes) as used by _zalloc and rzalloc_core_sys. -/
def mm_bzero (mm : MM) (dest n : Nat) : MM :=
  { mm with mem := fun a => if dest ≤ a ∧ a < dest + n then 0 else mm.mem a }

/-- The `for (i = map->first_free; i < map->count; ++i) if (hdr->used == 0)`
rescan at the end of alloc_block, written with an explicit fuel
(`count - i`) so that it evaluates by kernel reduction. -/
def scan_unused_aux (blocks : List block_hdr) : Nat → Nat → Option Nat
  | 0, _ => none
  | fuel + 1, i =>
    if (blocks.getD i default).used = 0 then some i
    else scan_unused_aux blocks fuel (i + 1)

/-- First index `j` with `i ≤ j < count` whose header is unused. -/
def scan_unused (blocks : List block_hdr) (count i : Nat) : Option Nat :=
  scan_unused_aux blocks (count - i) i

/-- The `remaining` count of alloc_cont_blocks: number of unused headers at
indices in `[i, count)`. -/
def count_unused_aux (blocks : List block_hdr) : Nat → Nat → Nat
  | 0, _ => 0
  | fuel + 1, i =>
    (if (blocks.getD i default).used = 0 then 1 else 0) + count_unused_aux blocks fuel (i + 1)

/-- Number of unused headers in `[i, count)`. -/
def count_unused (blocks : List block_hdr) (count i : Nat) : Nat :=
  count_unused_aux blocks (count - i) i

/-- The `for (current = start; current < count; current++) hdr->used = 1`
loop of alloc_cont_blocks.  Note the source's upper bound really is the
span block count `count`, not `start + count`. -/
def mark_used_aux (bound : Nat) : List block_hdr → Nat → Nat → List block_hdr
  | blocks, 0, _ => blocks
  | blocks, fuel + 1, current =>
    mark_used_aux bound (blocks.set current { blocks.getD current default with used := 1 }) fuel (current + 1)

/-- Mark headers `[current, bound)` used (used = 1, size kept). -/
def mark_used (blocks : List block_hdr) (current bound : Nat) : List block_hdr :=
  mark_used_aux bound blocks (bound - current) current

/-- The new first-free hint after the rescan of alloc_block: the next
unused index when the rescan finds one, otherwise the stale old value. -/
def next_first_free (block' : List block_hdr) (count first_free : Nat) : Nat :=
  match scan_unused block' count first_free with
  | some i => i
  | none => first_free

/-- alloc_block: allocate a single block from map `level` of `heap`.
Returns the block's address and the updated heap. -/
def alloc_block (heap : mm_heap) (level : Nat) : Nat × mm_heap :=
  let map := heap.map.getD level default
  let free_count' := map.free_count - 1
  let ptr := map.base + map.first_free * map.block_size
  let block' := map.block.set map.first_free { size := 1, used := 1 }
  let info' : mm_info := { used := heap.info.used + map.block_size,
                           free := heap.info.free - map.block_size }
  let map' := { map with free_count := free_count', block := block',
                         first_free := next_first_free block' map.count map.first_free }
  (ptr, { heap with map := heap.map.set level map', info := info' })

/-- The block count of a contiguous request: `bytes / block_size`, plus one
when the division leaves a remainder. -/
def span_count (bytes bs : Nat) : Nat :=
  bytes / bs + (if bytes % bs ≠ 0 then 1 else 0)

/-- alloc_cont_blocks: allocate a contiguous run of blocks from map `level`
of `heap` for a request of `bytes` bytes.  Returns `none` (and the heap
unchanged) when the map does not have enough remaining free blocks. -/
def alloc_cont_blocks (heap : mm_heap) (level : Nat) (bytes : Nat) : Option Nat × mm_heap :=
  let map := heap.map.getD level default
  let count := span_count bytes map.block_size
  let remaining := count_unused map.block map.count map.first_free
  if count > map.count ∨ remaining < count then (none, heap)
  else
    let start := map.first_free
    let free_count' := map.free_count - count
    let ptr := map.base + start * map.block_size
    let block1 := map.block.set start { map.block.getD start default with size := count }
    let info' : mm_info := { used := heap.info.used + count * map.block_size,
                             free := heap.info.free - count * map.block_size }
    let first_free' := map.first_free + count
    let block2 := mark_used block1 start count
    let map' := { map with free_count := free_count', block := block2, first_free := first_free' }
    (some ptr, { heap with map := heap.map.set level map', info := info' })

/-- get_heap_from_caps: index of the first heap in the array whose
capability mask fully contains `caps`. -/
def get_heap_from_caps : List mm_heap → Nat → Option Nat
  | [], _ => none
  | h :: t, caps =>
    if h.caps &&& caps = caps then some 0
    else (get_heap_from_caps t caps).map (· + 1)

/-- The map-selection loop shared by get_ptr_from_heap and the single-block
path of alloc_heap_buffer: first map whose block size is at least `bytes`
and whose free counter is nonzero. -/
def find_single_map : List block_map → Nat → Option Nat
  | [], _ => none
  | m :: t, bytes =>
    if m.block_size ≥ bytes ∧ m.free_count ≠ 0 then some 0
    else (find_single_map t bytes).map (· + 1)

/-- get_ptr_from_heap: single-block allocation from the first suitable map
of `heap`, with the uncached-alias translation on the result. -/
def get_ptr_from_heap (heap : mm_heap) (zone : Zone) (bytes : Nat) : Option Nat × mm_heap :=
  match find_single_map heap.map bytes with
  | some i =>
    let r := alloc_block heap i
    (some (zone_xlate zone r.1), r.2)
  | none => (none, heap)

/-- Which heap of the registry a pointer was resolved to. -/
inductive HeapRef where
  | sysRt (core : Nat)
  | rt (i : Nat)
  | buf (i : Nat)
deriving DecidableEq

/-- First heap of the array whose address range `[heap, heap + size)`
contains `p`. -/
def find_heap_in : List mm_heap → Nat → Option Nat
  | [], _ => none
  | h :: t, p =>
    if h.heap ≤ p ∧ p < h.heap + h.size then some 0
    else (find_heap_in t p).map (· + 1)

/-- get_heap_from_ptr: resolve the owning heap of `p`, checking the current
core's system-runtime heap, then the runtime array, then the buffer array. -/
def get_heap_from_ptr (mm : MM) (core p : Nat) : Option HeapRef :=
  let h := mm.system_runtime.getD core default
  if h.heap ≤ p ∧ p < h.heap + h.size then some (.sysRt core)
  else
    match find_heap_in mm.runtime p with
    | some i => some (.rt i)
    | none => (find_heap_in mm.buffer p).map .buf

/-- Read a heap through a resolved reference. -/
def heap_of_ref (mm : MM) : HeapRef → mm_heap
  | .sysRt core => mm.system_runtime.getD core default
  | .rt i => mm.runtime.getD i default
  | .buf i => mm.buffer.getD i default

/-- Write a heap back through a resolved reference. -/
def set_heap_ref (mm : MM) : HeapRef → mm_heap → MM
  | .sysRt core, h => { mm with system_runtime := mm.system_runtime.set core h }
  | .rt i, h => { mm with runtime := mm.runtime.set i h }
  | .buf i, h => { mm with buffer := mm.buffer.set i h }

/-- The `for (i = 0; i < heap->blocks; i++) if (ptr < base + size*count)`
map-resolution loop of free_block: first map whose end address is above
`p`. -/
def find_ptr_map : List block_map → Nat → Option Nat
  | [], _ => none
  | m :: t, p =>
    if p < m.base + m.block_size * m.count then some 0
    else (find_ptr_map t p).map (· + 1)

/-- The header-clearing loop of free_block, with an explicit fuel: each
iteration clears one header, increments the map's free counter and moves
`block_size` bytes from `info.used` to `info.free`. -/
def clear_aux : block_map → mm_info → Nat → Nat → block_map × mm_info
  | m, info, _, 0 => (m, info)
  | m, info, i, fuel + 1 =>
    clear_aux { m with block := m.block.set i ⟨0, 0⟩, free_count := m.free_count + 1 }
              { used := info.used - m.block_size, free := info.free + m.block_size }
              (i + 1) fuel

/-- Clear headers `[i, stop)` of `m`, updating the counters. -/
def clear_blocks (m : block_map) (info : mm_info) (i stop : Nat) : block_map × mm_info :=
  clear_aux m info i (stop - i)

/-- The body of free_block once the owning heap is known: resolve the map,
enforce block alignment (fatal on violation), clear the span recorded in
the head header, and lower the first-free hint. -/
def free_block_in_heap (heap : mm_heap) (p : Nat) : Except Unit mm_heap :=
  match find_ptr_map heap.map p with
  | none => .ok heap
  | some i =>
    let m := heap.map.getD i default
    let block := (p - m.base) / m.block_size
    if m.base + m.block_size * block = p then
      let hdr := m.block.getD block default
      let used_blocks := block + hdr.size
      let r := clear_blocks m heap.info block used_blocks
      let m' := if block < r.1.first_free then { r.1 with first_free := block } else r.1
      .ok { heap with map := heap.map.set i m', info := r.2 }
    else .error ()

/-- free_block: resolve the owning heap of `p` and release the block(s);
an unresolved pointer is logged and ignored, a misaligned one is fatal. -/
def free_block (mm : MM) (core p : Nat) : Except Unit MM :=
  match get_heap_from_ptr mm core p with
  | none => .ok mm
  | some ref => do
    let h' ← free_block_in_heap (heap_of_ref mm ref) p
    .ok (set_heap_ref mm ref h')

/-- _rfree_unlocked: null pointers are ignored; freeing inside the current
core's system heap is fatal; otherwise the block is freed and the trace
dirty flag is set. -/
def _rfree_unlocked (mm : MM) (core : Nat) (optp : Option Nat) : Except Unit MM :=
  match optp with
  | none => .ok mm
  | some p0 =>
    let p := if is_uncached p0 then uncache_to_cache p0 else p0
    let cpu_heap := mm.system.getD core default
    if cpu_heap.heap ≤ p ∧ p < cpu_heap.heap + cpu_heap.size then .error ()
    else do
      let mm' ← free_block mm core p
      .ok { mm' with heap_trace_updated := true }

/-- rmalloc_sys: bump allocation from the per-core system heap; fatal on a
capability mismatch or when the padded request exceeds the free bytes. -/
def rmalloc_sys (mm : MM) (zone : Zone) (caps core bytes : Nat) : Except Unit (Nat × MM) :=
  let cpu_heap := mm.system.getD core default
  if cpu_heap.caps &&& caps ≠ caps then .error ()
  else
    let alignment :=
      if cpu_heap.info.used % PLATFORM_DCACHE_ALIGN ≠ 0 then
        PLATFORM_DCACHE_ALIGN - cpu_heap.info.used % PLATFORM_DCACHE_ALIGN
      else 0
    if alignment + bytes > cpu_heap.info.free then .error ()
    else
      let used1 := cpu_heap.info.used + alignment
      let ptr := cpu_heap.heap + used1
      let ch' := { cpu_heap with info := { used := used1 + bytes,
                                           free := cpu_heap.info.free - (alignment + bytes) } }
      .ok (zone_xlate zone ptr, { mm with system := mm.system.set core ch' })

/-- rmalloc_sys_runtime: single-block allocation from the per-core
system-runtime heap; fatal on a capability mismatch. -/
def rmalloc_sys_runtime (mm : MM) (zone : Zone) (caps core bytes : Nat) :
    Except Unit (Option Nat × MM) :=
  let cpu_heap := mm.system_runtime.getD core default
  if cpu_heap.caps &&& caps ≠ caps then .error ()
  else
    let r := get_ptr_from_heap cpu_heap zone bytes
    .ok (r.1, { mm with system_runtime := mm.system_runtime.set core r.2 })

/-- rmalloc_runtime: search the runtime heap array, then the buffer heap
array, for the first capability match; single-block allocate from it. -/
def rmalloc_runtime (mm : MM) (zone : Zone) (caps bytes : Nat) : Option Nat × MM :=
  match get_heap_from_caps mm.runtime caps with
  | some i =>
    let r := get_ptr_from_heap (mm.runtime.getD i default) zone bytes
    (r.1, { mm with runtime := mm.runtime.set i r.2 })
  | none =>
    match get_heap_from_caps mm.buffer caps with
    | some i =>
      let r := get_ptr_from_heap (mm.buffer.getD i default) zone bytes
      (r.1, { mm with buffer := mm.buffer.set i r.2 })
    | none => (none, mm)

/-- Set the registry's trace dirty flag. -/
def set_trace_flag (mm : MM) : MM := { mm with heap_trace_updated := true }

/-- _malloc_unlocked: dispatch on the zone type; an unrecognized zone is
fatal.  The trace dirty flag is set on every non-fatal path. -/
def _malloc_unlocked (mm : MM) (core : Nat) (zone : Zone) (caps bytes : Nat) :
    Except Unit (Option Nat × MM) :=
  match zone.ztype with
  | .sys => do
    let r ← rmalloc_sys mm zone caps core bytes
    .ok (some r.1, set_trace_flag r.2)
  | .sysRuntime => do
    let r ← rmalloc_sys_runtime mm zone caps core bytes
    .ok (r.1, set_trace_flag r.2)
  | .runtime =>
    let r := rmalloc_runtime mm zone caps bytes
    .ok (r.1, set_trace_flag r.2)
  | .invalid => .error ()

/-- _zalloc: _malloc followed by bzero of the returned region. -/
def _zalloc (mm : MM) (core : Nat) (zone : Zone) (caps bytes : Nat) :
    Except Unit (Option Nat × MM) := do
  let r ← _malloc_unlocked mm core zone caps bytes
  match r.1 with
  | some p => .ok (some p, mm_bzero r.2 p bytes)
  | none => .ok r

/-- rzalloc_core_sys: zero-filled system allocation on behalf of `core`. -/
def rzalloc_core_sys (mm : MM) (core bytes : Nat) : Except Unit (Nat × MM) := do
  let r ← rmalloc_sys mm ⟨.sys, false⟩ 0 core bytes
  .ok (r.1, mm_bzero r.2 r.1 bytes)

/-- The contiguous-span fallback loop of alloc_heap_buffer: try maps from
the largest-index one downward; the argument is one past the next index to
try.  A map is tried when the whole heap could hold the request and the
map's block size is strictly below it. -/
def cont_scan (zone : Zone) (bytes : Nat) : mm_heap → Nat → Option Nat × mm_heap
  | heap, 0 => (none, heap)
  | heap, n + 1 =>
    let map := heap.map.getD n default
    if heap.size ≥ bytes ∧ map.block_size < bytes then
      match alloc_cont_blocks heap n bytes with
      | (some p, h') => (some p, h')
      | (none, h') => cont_scan zone bytes h' n
    else cont_scan zone bytes heap n

/-- alloc_heap_buffer: try a single block first, then a contiguous span,
then translate the result for the uncached flag. -/
def alloc_heap_buffer (heap : mm_heap) (zone : Zone) (bytes : Nat) : Option Nat × mm_heap :=
  let r :=
    match find_single_map heap.map bytes with
    | some i => let a := alloc_block heap i; (some a.1, a.2)
    | none => cont_scan zone bytes heap heap.map.length
  match r.1 with
  | some p => (some (zone_xlate zone p), r.2)
  | none => (none, r.2)

/-- The heap-stepping loop of _balloc_unlocked: from index `i`, find the
next buffer heap matching `caps`, try it, and continue after it on
failure.  The fuel bounds the number of iterations by the array length. -/
def balloc_from (zone : Zone) (caps bytes : Nat) : Nat → MM → Nat → Option Nat × MM
  | 0, mm, _ => (none, mm)
  | fuel + 1, mm, i =>
    match get_heap_from_caps (mm.buffer.drop i) caps with
    | none => (none, mm)
    | some j =>
      let idx := i + j
      let r := alloc_heap_buffer (mm.buffer.getD idx default) zone bytes
      let mm' := { mm with buffer := mm.buffer.set idx r.2 }
      match r.1 with
      | some p => (some p, mm')
      | none => balloc_from zone caps bytes fuel mm' (idx + 1)

/-- _balloc_unlocked: buffer allocation over the buffer heap array. -/
def _balloc_unlocked (mm : MM) (zone : Zone) (caps bytes : Nat) : Option Nat × MM :=
  balloc_from zone caps bytes mm.buffer.length mm 0

/-- _realloc: a zero-byte request returns null at once; otherwise allocate,
copy `bytes` bytes when both pointers exist, and free the old pointer only
when the new allocation succeeded. -/
def _realloc (mm : MM) (core : Nat) (optp : Option Nat) (zone : Zone) (caps bytes : Nat) :
    Except Unit (Option Nat × MM) :=
  if bytes = 0 then .ok (none, mm)
  else do
    let r ← _malloc_unlocked mm core zone caps bytes
    match r.1, optp with
    | some np, some p => do
      let mm2 := mm_memcpy r.2 np p bytes
      let mm3 ← _rfree_unlocked mm2 core (some p)
      .ok (some np, mm3)
    | some np, none => do
      let mm3 ← _rfree_unlocked r.2 core none
      .ok (some np, mm3)
    | none, _ => .ok (none, r.2)

/-- _brealloc: the buffer-class variant of _realloc. -/
def _brealloc (mm : MM) (core : Nat) (optp : Option Nat) (zone : Zone) (caps bytes : Nat) :
    Except Unit (Option Nat × MM) :=
  if bytes = 0 then .ok (none, mm)
  else
    let r := _balloc_unlocked mm zone caps bytes
    match r.1, optp with
    | some np, some p => do
      let mm2 := mm_memcpy r.2 np p bytes
      let mm3 ← _rfree_unlocked mm2 core (some p)
      .ok (some np, mm3)
    | some np, none => do
      let mm3 ← _rfree_unlocked r.2 core none
      .ok (some np, mm3)
    | none, _ => .ok (none, r.2)

/-- Number of headers marked used (used = 1), as in the capacity invariant. -/
def count_used_hdrs (blocks : List block_hdr) : Nat :=
  blocks.countP (fun h => h.used == 1)

/-- The spec's Block Map capacity invariant: the free counter equals the
slot count minus the number of used headers. -/
def map_capacity_inv (m : block_map) : Prop :=
  m.free_count = m.count - count_used_hdrs m.block

/-- The spec's heap capacity invariant, together with the map invariant for
every block map of the heap. -/
def heap_capacity_inv (h : mm_heap) : Prop :=
  h.info.used + h.info.free = h.size ∧ ∀ m ∈ h.map, map_capacity_inv m

/-- The capacity invariant over every heap of the registry. -/
def mm_capacity_inv (mm : MM) : Prop :=
  (∀ h ∈ mm.system, heap_capacity_inv h) ∧
  (∀ h ∈ mm.system_runtime, heap_capacity_inv h) ∧
  (∀ h ∈ mm.runtime, heap_capacity_inv h) ∧
  (∀ h ∈ mm.buffer, heap_capacity_inv h)

instance (m : block_map) : Decidable (map_capacity_inv m) := by
  unfold map_capacity_inv; infer_instance

instance (h : mm_heap) : Decidable (heap_capacity_inv h) := by
  unfold heap_capacity_inv; infer_instance

instance (mm : MM) : Decidable (mm_capacity_inv mm) := by
  unfold mm_capacity_inv; infer_instance

/-- A public allocator call used in the concrete reachability traces:
a buffer allocation or a free. -/
inductive Op where
  | balloc (bytes : Nat)
  | rfree (p : Option Nat)
deriving DecidableEq

/-- Run one public call (capability mask 0). -/
def runOp (mm : MM) (core : Nat) (zone : Zone) : Op → Except Unit (Option Nat × MM)
  | .balloc bytes => .ok (_balloc_unlocked mm zone 0 bytes)
  | .rfree p => do
    let mm' ← _rfree_unlocked mm core p
    .ok (none, mm')

/-- Run a sequence of public calls, keeping the final state. -/
def runOps (mm : MM) (core : Nat) (zone : Zone) : List Op → Except Unit MM
  | [] => .ok mm
  | op :: t => do
    let r ← runOp mm core zone op
    runOps r.2 core zone t

/-- Run a sequence of public calls, collecting each call's returned
pointer (a free contributes `none`). -/
def resultsOf (mm : MM) (core : Nat) (zone : Zone) : List Op → List (Option Nat)
  | [] => []
  | op :: t =>
    match runOp mm core zone op with
    | .error _ => []
    | .ok r => r.1 :: resultsOf r.2 core zone t

/-- Final state of a trace (all traces used below stay on non-fatal
paths). -/
def stateAfter (mm : MM) (core : Nat) (zone : Zone) (ops : List Op) : MM :=
  match runOps mm core zone ops with
  | .ok m => m
  | .error _ => default

/-- A buffer heap of four 16-byte blocks in one block map, all free: the
heap of the spec's Scenarios A and B. -/
def bheap : mm_heap :=
  { heap := 4096, size := 64, caps := 0,
    map := [{ block_size := 16, count := 4, free_count := 4, first_free := 0,
              base := 4096, block := [⟨0, 0⟩, ⟨0, 0⟩, ⟨0, 0⟩, ⟨0, 0⟩] }],
    info := { used := 0, free := 64 } }

/-- A registry with one core and one buffer heap (`bheap`); the system and
system-runtime heaps occupy disjoint address ranges. -/
def bmm : MM :=
  { system := [{ heap := 1024, size := 128, caps := 0, map := [], info := ⟨0, 128⟩ }],
    system_runtime := [{ heap := 2048, size := 0, caps := 0, map := [], info := ⟨0, 0⟩ }],
    runtime := [], buffer := [bheap], heap_trace_updated := false, mem := fun _ => 0 }

/-- The runtime zone without the uncached flag. -/
def zrt : Zone := ⟨.runtime, false⟩

/-- The single block map of the single buffer heap of a registry. -/
def buf0map (mm : MM) : block_map :=
  (mm.buffer.getD 0 default).map.getD 0 default

/-- Closed form of the list rewriting performed by the clearing loop of
free_block: headers `[i, i + k)` set to zero. -/
def clear_range : List block_hdr → Nat → Nat → List block_hdr
  | blocks, _, 0 => blocks
  | blocks, i, k + 1 => clear_range (blocks.set i ⟨0, 0⟩) (i + 1) k

/-- Whether a modelled call completed without hitting the fatal path. -/
def except_ok {ε α : Type} : Except ε α → Bool
  | .ok _ => true
  | .error _ => false

/-- A registry with two cores: core 1's system heap covers `[5000, 5100)`;
no other heap overlaps that range. -/
def c5mm : MM :=
  { system := [{ heap := 1024, size := 128, caps := 0, map := [], info := ⟨0, 128⟩ },
               { heap := 5000, size := 100, caps := 0, map := [], info := ⟨0, 100⟩ }],
    system_runtime := [{ heap := 2048, size := 0, caps := 0, map := [], info := ⟨0, 0⟩ },
                       { heap := 2048, size := 0, caps := 0, map := [], info := ⟨0, 0⟩ }],
    runtime := [], buffer := [], heap_trace_updated := false, mem := fun _ => 0 }

/-- An empty registry: no heap qualifies for any request. -/
def c8mm : MM :=
  { system := [], system_runtime := [], runtime := [], buffer := [],
    heap_trace_updated := false, mem := fun _ => 0 }

/-- A registry whose runtime array holds a matching heap. -/
def c7mm : MM :=
  { system := [], system_runtime := [], runtime := [bheap], buffer := [],
    heap_trace_updated := false, mem := fun _ => 0 }

/-- The public-call sequence reaching a state in which the single-block
allocator grants a slot whose header is already marked used: three single
allocations, two frees, then a two-block span. -/
def c3_ops : List Op :=
  [.balloc 16, .balloc 16, .balloc 16, .rfree (some 4096), .rfree (some 4112), .balloc 32]

theorem list_set_getD_self {α : Type} (l : List α) (i : Nat) (d : α) :
    l.set i (l.getD i d) = l := by
  induction l generalizing i with
  | nil => rfl
  | cons a t ih =>
    cases i with
    | zero => simp [List.getD]
    | succ n =>
      show a :: t.set n (t.getD n d) = a :: t
      rw [ih]

theorem list_getD_set_eq {α : Type} [Inhabited α] (l : List α) (i : Nat) (a : α)
    (h : i < l.length) : (l.set i a).getD i default = a := by
  induction l generalizing i with
  | nil => simp at h
  | cons b t ih =>
    cases i with
    | zero => rfl
    | succ n =>
      show (t.set n a).getD n default = a
      exact ih n (by simpa using h)

theorem list_getD_set_ne {α : Type} [Inhabited α] (l : List α) (i j : Nat) (a : α)
    (h : i ≠ j) : (l.set i a).getD j default = l.getD j default := by
  induction l generalizing i j with
  | nil => rfl
  | cons b t ih =>
    cases i with
    | zero =>
      cases j with
      | zero => exact absurd rfl h
      | succ n => rfl
    | succ m =>
      cases j with
      | zero => rfl
      | succ n =>
        show (t.set m a).getD n default = t.getD n default
        exact ih m n (by omega)

theorem find_ptr_map_lt_length (l : List block_map) (p i : Nat)
    (h : find_ptr_map l p = some i) : i < l.length := by
  induction l generalizing i with
  | nil => cases h
  | cons m t ih =>
    by_cases hc : p < m.base + m.block_size * m.count
    · rw [find_ptr_map, if_pos hc] at h
      cases h
      simp
    · rw [find_ptr_map, if_neg hc] at h
      match hpn : find_ptr_map t p with
      | none => rw [hpn] at h; cases h
      | some a =>
        rw [hpn] at h
        cases h
        have := ih a hpn
        simp
        omega

theorem clear_aux_spec (k : Nat) : ∀ (m : block_map) (info : mm_info) (i : Nat),
    clear_aux m info i k =
      ({ m with block := clear_range m.block i k, free_count := m.free_count + k },
       { used := info.used - k * m.block_size, free := info.free + k * m.block_size }) := by
  induction k with
  | zero => intro m info i; simp [clear_aux, clear_range]
  | succ n ih =>
    intro m info i
    have h1 : clear_aux m info i (n + 1) =
        clear_aux { m with block := m.block.set i ⟨0, 0⟩, free_count := m.free_count + 1 }
          { used := info.used - m.block_size, free := info.free + m.block_size } (i + 1) n := rfl
    rw [h1, ih]
    have h2 : clear_range (m.block.set i ⟨0, 0⟩) (i + 1) n = clear_range m.block i (n + 1) := rfl
    simp only [Prod.mk.injEq, block_map.mk.injEq, mm_info.mk.injEq, h2, true_and, and_true]
    refine ⟨by omega, ?_, ?_⟩
    · rw [Nat.sub_sub, Nat.succ_mul, Nat.add_comm (n * m.block_size)]
    · rw [Nat.add_assoc, Nat.succ_mul, Nat.add_comm m.block_size]

theorem clear_range_length (k : Nat) : ∀ (blocks : List block_hdr) (i : Nat),
    (clear_range blocks i k).length = blocks.length := by
  induction k with
  | zero => intros; rfl
  | succ n ih =>
    intro blocks i
    show (clear_range (blocks.set i ⟨0, 0⟩) (i + 1) n).length = blocks.length
    rw [ih, List.length_set]

theorem clear_range_getD_lt (k : Nat) : ∀ (blocks : List block_hdr) (i j : Nat), j < i →
    (clear_range blocks i k).getD j default = blocks.getD j default := by
  induction k with
  | zero => intros; rfl
  | succ n ih =>
    intro blocks i j hj
    show (clear_range (blocks.set i ⟨0, 0⟩) (i + 1) n).getD j default = blocks.getD j default
    rw [ih _ _ _ (by omega), list_getD_set_ne _ _ _ _ (by omega)]

theorem clear_range_getD_in (k : Nat) : ∀ (blocks : List block_hdr) (i j : Nat),
    i ≤ j → j < i + k → j < blocks.length →
    (clear_range blocks i k).getD j default = ⟨0, 0⟩ := by
  induction k with
  | zero => intro _ _ _ h1 h2 _; omega
  | succ n ih =>
    intro blocks i j hij hjk hlen
    show (clear_range (blocks.set i ⟨0, 0⟩) (i + 1) n).getD j default = ⟨0, 0⟩
    by_cases hji : j = i
    · subst hji
      rw [clear_range_getD_lt n _ _ _ (by omega)]
      exact list_getD_set_eq _ _ _ hlen
    · exact ih _ _ _ (by omega) (by omega) (by simpa using hlen)

theorem mark_used_aux_length (bound : Nat) (fuel : Nat) : ∀ (blocks : List block_hdr) (c : Nat),
    (mark_used_aux bound blocks fuel c).length = blocks.length := by
  induction fuel with
  | zero => intros; rfl
  | succ n ih =>
    intro blocks c
    show (mark_used_aux bound (blocks.set c _) n (c + 1)).length = blocks.length
    rw [ih, List.length_set]

theorem getD_set_size_eq (blocks : List block_hdr) (c : Nat) (h : block_hdr) (j : Nat)
    (hsz : h.size = (blocks.getD c default).size) :
    ((blocks.set c h).getD j default).size = (blocks.getD j default).size := by
  by_cases hjc : j = c
  · subst hjc
    by_cases hlt : j < blocks.length
    · rw [list_getD_set_eq _ _ _ hlt, hsz]
    · rw [List.getD_eq_default _ _ (by rw [List.length_set]; omega),
          List.getD_eq_default _ _ (by omega)]
  · rw [list_getD_set_ne _ _ _ _ (by omega)]

theorem mark_used_aux_getD_size (bound : Nat) (fuel : Nat) :
    ∀ (blocks : List block_hdr) (c j : Nat),
    ((mark_used_aux bound blocks fuel c).getD j default).size = (blocks.getD j default).size := by
  induction fuel with
  | zero => intros; rfl
  | succ n ih =>
    intro blocks c j
    show ((mark_used_aux bound (blocks.set c { blocks.getD c default with used := 1 }) n
        (c + 1)).getD j default).size = (blocks.getD j default).size
    rw [ih]
    exact getD_set_size_eq _ _ _ _ rfl

theorem free_block_in_heap_spec (heap : mm_heap) (p level k : Nat)
    (hfind : find_ptr_map heap.map p = some level)
    (hbs : 0 < (heap.map.getD level default).block_size)
    (hp : p = (heap.map.getD level default).base + (heap.map.getD level default).block_size * k) :
    free_block_in_heap heap p =
      (let m := heap.map.getD level default
       let r := clear_blocks m heap.info k (k + (m.block.getD k default).size)
       let m' := if k < r.1.first_free then { r.1 with first_free := k } else r.1
       .ok { heap with map := heap.map.set level m', info := r.2 }) := by
  have hk : (p - (heap.map.getD level default).base) / (heap.map.getD level default).block_size
      = k := by
    rw [hp, Nat.add_sub_cancel_left, Nat.mul_div_cancel_left _ hbs]
  simp only [free_block_in_heap, hfind, hk]
  rw [if_pos hp.symm]

theorem get_ptr_from_heap_none (h : mm_heap) (z : Zone) (b : Nat) (h' : mm_heap)
    (hr : get_ptr_from_heap h z b = (none, h')) : h' = h := by
  unfold get_ptr_from_heap at hr
  match hm : find_single_map h.map b with
  | some i => rw [hm] at hr; cases hr
  | none => rw [hm] at hr; cases hr; rfl

theorem rmalloc_sys_runtime_none (mm : MM) (z : Zone) (caps core b : Nat) (mm' : MM)
    (hr : rmalloc_sys_runtime mm z caps core b = .ok (none, mm')) : mm' = mm := by
  unfold rmalloc_sys_runtime at hr
  by_cases hc : (mm.system_runtime.getD core default).caps &&& caps ≠ caps
  · rw [if_pos hc] at hr; cases hr
  · rw [if_neg hc] at hr
    match hg : get_ptr_from_heap (mm.system_runtime.getD core default) z b with
    | (p, h2) =>
      rw [hg] at hr
      simp only [Except.ok.injEq, Prod.mk.injEq] at hr
      obtain ⟨hp, hmm⟩ := hr
      subst hp
      have h2e : h2 = mm.system_runtime.getD core default := get_ptr_from_heap_none _ _ _ _ hg
      rw [← hmm, h2e, list_set_getD_self]

theorem rmalloc_runtime_none (mm : MM) (z : Zone) (caps b : Nat) (mm' : MM)
    (hr : rmalloc_runtime mm z caps b = (none, mm')) : mm' = mm := by
  match h1 : get_heap_from_caps mm.runtime caps with
  | some i =>
    have hcomp : rmalloc_runtime mm z caps b =
        ((get_ptr_from_heap (mm.runtime.getD i default) z b).1,
         { mm with runtime := (mm.runtime.set i
             (get_ptr_from_heap (mm.runtime.getD i default) z b).2) }) := by
      unfold rmalloc_runtime
      rw [h1]
    rw [hcomp] at hr
    simp only [Prod.mk.injEq] at hr
    obtain ⟨hp, hmm⟩ := hr
    have h2e : (get_ptr_from_heap (mm.runtime.getD i default) z b).2
        = mm.runtime.getD i default := get_ptr_from_heap_none _ _ _ _ (by rw [← hp])
    rw [← hmm, h2e, list_set_getD_self]
  | none =>
    match h2 : get_heap_from_caps mm.buffer caps with
    | some i =>
      have hcomp : rmalloc_runtime mm z caps b =
          ((get_ptr_from_heap (mm.buffer.getD i default) z b).1,
           { mm with buffer := (mm.buffer.set i
               (get_ptr_from_heap (mm.buffer.getD i default) z b).2) }) := by
        unfold rmalloc_runtime
        rw [h1, h2]
      rw [hcomp] at hr
      simp only [Prod.mk.injEq] at hr
      obtain ⟨hp, hmm⟩ := hr
      have h2e : (get_ptr_from_heap (mm.buffer.getD i default) z b).2
          = mm.buffer.getD i default := get_ptr_from_heap_none _ _ _ _ (by rw [← hp])
      rw [← hmm, h2e, list_set_getD_self]
    | none =>
      have hcomp : rmalloc_runtime mm z caps b = (none, mm) := by
        unfold rmalloc_runtime
        rw [h1, h2]
      rw [hcomp] at hr
      exact (Prod.mk.injEq _ _ _ _ ▸ hr).2.symm

theorem malloc_unlocked_none (mm : MM) (core : Nat) (zone : Zone) (caps bytes : Nat) (mm1 : MM)
    (hr : _malloc_unlocked mm core zone caps bytes = .ok (none, mm1)) :
    mm1 = set_trace_flag mm := by
  match hz : zone.ztype with
  | .sys =>
    match hs : rmalloc_sys mm zone caps core bytes with
    | .error e =>
      have hcomp : _malloc_unlocked mm core zone caps bytes = .error e := by
        unfold _malloc_unlocked
        rw [hz, hs]
        rfl
      rw [hcomp] at hr
      exact Except.noConfusion hr
    | .ok r =>
      have hcomp : _malloc_unlocked mm core zone caps bytes
          = .ok (some r.1, set_trace_flag r.2) := by
        unfold _malloc_unlocked
        rw [hz, hs]
        rfl
      rw [hcomp] at hr
      simp only [Except.ok.injEq, Prod.mk.injEq] at hr
      exact Option.noConfusion hr.1
  | .sysRuntime =>
    match hs : rmalloc_sys_runtime mm zone caps core bytes with
    | .error e =>
      have hcomp : _malloc_unlocked mm core zone caps bytes = .error e := by
        unfold _malloc_unlocked
        rw [hz, hs]
        rfl
      rw [hcomp] at hr
      exact Except.noConfusion hr
    | .ok r =>
      have hcomp : _malloc_unlocked mm core zone caps bytes
          = .ok (r.1, set_trace_flag r.2) := by
        unfold _malloc_unlocked
        rw [hz, hs]
        rfl
      rw [hcomp] at hr
      simp only [Except.ok.injEq, Prod.mk.injEq] at hr
      obtain ⟨hp, hmm⟩ := hr
      have h2e : r.2 = mm := by
        refine rmalloc_sys_runtime_none mm zone caps core bytes r.2 ?_
        rw [hs, ← hp]
      rw [← hmm, h2e]
  | .runtime =>
    have hcomp : _malloc_unlocked mm core zone caps bytes
        = .ok ((rmalloc_runtime mm zone caps bytes).1,
               set_trace_flag (rmalloc_runtime mm zone caps bytes).2) := by
      unfold _malloc_unlocked
      rw [hz]
    rw [hcomp] at hr
    simp only [Except.ok.injEq, Prod.mk.injEq] at hr
    obtain ⟨hp, hmm⟩ := hr
    have h2e : (rmalloc_runtime mm zone caps bytes).2 = mm :=
      rmalloc_runtime_none mm zone caps bytes _ (by rw [← hp])
    rw [← hmm, h2e]
  | .invalid =>
    have hcomp : _malloc_unlocked mm core zone caps bytes = .error () := by
      unfold _malloc_unlocked
      rw [hz]
    rw [hcomp] at hr
    exact Except.noConfusion hr

theorem alloc_cont_blocks_none (h : mm_heap) (l b : Nat) (h' : mm_heap)
    (hr : alloc_cont_blocks h l b = (none, h')) : h' = h := by
  unfold alloc_cont_blocks at hr
  by_cases hc : span_count b (h.map.getD l default).block_size > (h.map.getD l default).count ∨
      count_unused (h.map.getD l default).block (h.map.getD l default).count
        (h.map.getD l default).first_free < span_count b (h.map.getD l default).block_size
  · rw [if_pos hc] at hr
    exact ((Prod.mk.injEq _ _ _ _ ▸ hr).2).symm
  · rw [if_neg hc] at hr
    exact Option.noConfusion (Prod.mk.injEq _ _ _ _ ▸ hr).1

theorem cont_scan_none (z : Zone) (b : Nat) : ∀ (n : Nat) (h h' : mm_heap),
    cont_scan z b h n = (none, h') → h' = h := by
  intro n
  induction n with
  | zero =>
    intro h h' hr
    exact ((Prod.mk.injEq _ _ _ _ ▸ hr).2).symm
  | succ m ih =>
    intro h h' hr
    rw [cont_scan] at hr
    by_cases hc : h.size ≥ b ∧ (h.map.getD m default).block_size < b
    · rw [if_pos hc] at hr
      match ha : alloc_cont_blocks h m b with
      | (some p, h2) =>
        rw [ha] at hr
        exact Option.noConfusion (Prod.mk.injEq _ _ _ _ ▸ hr).1
      | (none, h2) =>
        rw [ha] at hr
        have h2e : h2 = h := alloc_cont_blocks_none h m b h2 ha
        rw [← h2e]
        exact ih h2 h' hr
    · rw [if_neg hc] at hr
      exact ih h h' hr

theorem alloc_heap_buffer_none (h : mm_heap) (z : Zone) (b : Nat) (h' : mm_heap)
    (hr : alloc_heap_buffer h z b = (none, h')) : h' = h := by
  unfold alloc_heap_buffer at hr
  match hm : find_single_map h.map b with
  | some i =>
    rw [hm] at hr
    exact Option.noConfusion (Prod.mk.injEq _ _ _ _ ▸ hr).1
  | none =>
    rw [hm] at hr
    match hc : cont_scan z b h h.map.length with
    | (some p, h2) =>
      rw [hc] at hr
      exact Option.noConfusion (Prod.mk.injEq _ _ _ _ ▸ hr).1
    | (none, h2) =>
      rw [hc] at hr
      have := (Prod.mk.injEq _ _ _ _ ▸ hr).2
      rw [← this]
      exact cont_scan_none z b _ h h2 hc

theorem balloc_from_none (z : Zone) (caps b : Nat) : ∀ (fuel : Nat) (mm : MM) (i : Nat) (mm2 : MM),
    balloc_from z caps b fuel mm i = (none, mm2) → mm2 = mm := by
  intro fuel
  induction fuel with
  | zero =>
    intro mm i mm2 hr
    exact ((Prod.mk.injEq _ _ _ _ ▸ hr).2).symm
  | succ n ih =>
    intro mm i mm2 hr
    match hg : get_heap_from_caps (mm.buffer.drop i) caps with
    | none =>
      have hcomp : balloc_from z caps b (n + 1) mm i = (none, mm) := by
        rw [balloc_from, hg]
      rw [hcomp] at hr
      exact ((Prod.mk.injEq _ _ _ _ ▸ hr).2).symm
    | some j =>
      have hstep : balloc_from z caps b (n + 1) mm i =
          (match (alloc_heap_buffer (mm.buffer.getD (i + j) default) z b).1 with
           | some p => (some p, { mm with buffer := (mm.buffer.set (i + j)
               (alloc_heap_buffer (mm.buffer.getD (i + j) default) z b).2) })
           | none => balloc_from z caps b n { mm with buffer := (mm.buffer.set (i + j)
               (alloc_heap_buffer (mm.buffer.getD (i + j) default) z b).2) } (i + j + 1)) := by
        rw [balloc_from, hg]
      rw [hstep] at hr
      match ha : alloc_heap_buffer (mm.buffer.getD (i + j) default) z b with
      | (some p, h2) =>
        rw [ha] at hr
        dsimp only at hr
        exact Option.noConfusion (Prod.mk.injEq _ _ _ _ ▸ hr).1
      | (none, h2) =>
        rw [ha] at hr
        dsimp only at hr
        have h2e : h2 = mm.buffer.getD (i + j) default := alloc_heap_buffer_none _ _ _ _ ha
        have hmm' : ({ mm with buffer := mm.buffer.set (i + j) h2 } : MM) = mm := by
          rw [h2e, list_set_getD_self]
        rw [hmm'] at hr
        exact ih mm (i + j + 1) mm2 hr

theorem balloc_unlocked_none (mm : MM) (z : Zone) (caps b : Nat) (mm2 : MM)
    (hr : _balloc_unlocked mm z caps b = (none, mm2)) : mm2 = mm :=
  balloc_from_none z caps b mm.buffer.length mm 0 mm2 hr

/-- C1: the capacity invariant (`info.used + info.free == size` for every
heap and `free_count == count - #used` for every block map) is claimed to
hold after every public operation.  It holds initially and after a single
allocation, but the public call sequence balloc(16); balloc(32) on the
four-block heap leaves `free_count = 1` while `count -` (number of used
headers) `= 2`: alloc_cont_blocks decrements `free_count` by the span count
but its marking loop `for (current = start; current < count; ...)` stops at
the span count instead of `start + count`, so header 2 of the live span is
never marked used. -/
theorem c1_capacity_invariant_violated :
    mm_capacity_inv bmm ∧
    mm_capacity_inv (stateAfter bmm 0 zrt [.balloc 16]) ∧
    ¬ mm_capacity_inv (stateAfter bmm 0 zrt [.balloc 16, .balloc 32]) ∧
    (buf0map (stateAfter bmm 0 zrt [.balloc 16, .balloc 32])).free_count = 1 ∧
    (buf0map (stateAfter bmm 0 zrt [.balloc 16, .balloc 32])).count -
      count_used_hdrs (buf0map (stateAfter bmm 0 zrt [.balloc 16, .balloc 32])).block = 2 := by
  decide

/-- C2: a successful contiguous allocation at start index 1 for two blocks
(balloc(32) after balloc(16) on the four-block heap) records size 2 in the
head header and advances first_free by 2, but marks only header 1 used:
header 2, inside the live span `[1, 3)`, keeps `used = 0`, refuting the
claim that exactly the headers in `[start, start + count)` are marked. -/
theorem c2_span_marking_violated :
    (_balloc_unlocked (stateAfter bmm 0 zrt [.balloc 16]) zrt 0 32).1 = some 4112 ∧
    (buf0map (_balloc_unlocked (stateAfter bmm 0 zrt [.balloc 16]) zrt 0 32).2).block.getD 1
      default = ⟨2, 1⟩ ∧
    (buf0map (_balloc_unlocked (stateAfter bmm 0 zrt [.balloc 16]) zrt 0 32).2).block.getD 2
      default = ⟨0, 0⟩ ∧
    (buf0map (_balloc_unlocked (stateAfter bmm 0 zrt [.balloc 16]) zrt 0 32).2).first_free = 3 ∧
    (buf0map (_balloc_unlocked (stateAfter bmm 0 zrt [.balloc 16]) zrt 0 32).2).free_count = 1 := by
  decide

/-- C3: the public call sequence balloc(16) x3, rfree(base), rfree(base+16),
balloc(32) reaches a state in which the single-block path again selects the
map (block_size 16 >= 16 and free_count = 1 > 0) while the header at
first_free is already marked used; the subsequent balloc(16) then returns
base+32, the same address the third call returned, which was never freed —
a double hand-out of the live slot. -/
theorem c3_used_slot_granted :
    resultsOf bmm 0 zrt (c3_ops ++ [.balloc 16]) =
      [some 4096, some 4112, some 4128, none, none, some 4096, some 4128] ∧
    find_single_map ((stateAfter bmm 0 zrt c3_ops).buffer.getD 0 default).map 16 = some 0 ∧
    ((buf0map (stateAfter bmm 0 zrt c3_ops)).block.getD
      (buf0map (stateAfter bmm 0 zrt c3_ops)).first_free default).used = 1 := by
  decide

/-- C5 counterexample: with two cores, a pointer strictly inside core 1's
System heap freed from core 0 is not fatal: the free only checks the
current core's system heap, fails to resolve any owning heap, and returns
as a logged no-op. -/
theorem c5_other_core_not_fatal :
    (c5mm.system.getD 1 default).heap ≤ 5010 ∧
    5010 < (c5mm.system.getD 1 default).heap + (c5mm.system.getD 1 default).size ∧
    except_ok (_rfree_unlocked c5mm 0 (some 5010)) = true := by
  decide

/-- C5 (amended): every non-null pointer that lies inside the CURRENT
core's System heap makes free take the fatal path; it never reaches the
block-free path. -/
theorem c5_current_core_system_free_fatal (mm : MM) (core p : Nat)
    (h1 : (mm.system.getD core default).heap ≤ p)
    (h2 : p < (mm.system.getD core default).heap + (mm.system.getD core default).size) :
    _rfree_unlocked mm core (some p) = .error () := by
  have hcomp : _rfree_unlocked mm core (some p) =
      (if (mm.system.getD core default).heap ≤ p ∧
          p < (mm.system.getD core default).heap + (mm.system.getD core default).size then
        .error ()
      else do
        let mm' ← free_block mm core p
        .ok { mm' with heap_trace_updated := true }) := rfl
  rw [hcomp, if_pos ⟨h1, h2⟩]

/-- C5 witness: a concrete pointer inside core 0's system heap is fatal. -/
theorem c5_witness : _rfree_unlocked bmm 0 (some 1030) = .error () :=
  c5_current_core_system_free_fatal bmm 0 1030 (by decide) (by decide)

/-- C9: free(null) leaves the registry exactly unchanged, and both
reallocate variants return null on a zero-byte request without touching
the allocator state or the memory contents. -/
theorem c9_null_safety (mm : MM) (core : Nat) (zone : Zone) (caps : Nat) (optp : Option Nat) :
    _rfree_unlocked mm core none = .ok mm ∧
    _realloc mm core optp zone caps 0 = .ok (none, mm) ∧
    _brealloc mm core optp zone caps 0 = .ok (none, mm) :=
  ⟨rfl, rfl, rfl⟩

/-- C6: every pointer handed out by the single-block allocator is
`base + k * block_size` with `k < count` (k is the first-free hint, under
the block-map well-formedness the spec states for reachable states), and
freeing an in-map address that is not on a block boundary is fatal. -/
theorem c6_alignment :
    (∀ (heap : mm_heap) (level : Nat),
      (heap.map.getD level default).first_free < (heap.map.getD level default).count →
      0 < (heap.map.getD level default).free_count →
      ∃ k, k < (heap.map.getD level default).count ∧
        (alloc_block heap level).1 =
          (heap.map.getD level default).base + k * (heap.map.getD level default).block_size) ∧
    (∀ (heap : mm_heap) (p level : Nat),
      find_ptr_map heap.map p = some level →
      (heap.map.getD level default).base ≤ p →
      0 < (heap.map.getD level default).block_size →
      ¬ (heap.map.getD level default).block_size ∣ (p - (heap.map.getD level default).base) →
      free_block_in_heap heap p = .error ()) := by
  constructor
  · intro heap level hff _hfc
    exact ⟨(heap.map.getD level default).first_free, hff, rfl⟩
  · intro heap p level hfind hbase hbs hdvd
    have hne : ¬ ((heap.map.getD level default).base + (heap.map.getD level default).block_size *
        ((p - (heap.map.getD level default).base) / (heap.map.getD level default).block_size)
        = p) := by
      intro heq
      exact hdvd ⟨(p - (heap.map.getD level default).base) /
        (heap.map.getD level default).block_size, by omega⟩
    unfold free_block_in_heap
    rw [hfind]
    dsimp only
    rw [if_neg hne]

/-- C6 witness: on the four-block heap the allocator returns base + 0*16,
and freeing base+4 (inside the map, off the block grid) is fatal. -/
theorem c6_witness :
    (∃ k, k < (bheap.map.getD 0 default).count ∧
      (alloc_block bheap 0).1 =
        (bheap.map.getD 0 default).base + k * (bheap.map.getD 0 default).block_size) ∧
    free_block_in_heap bheap 4100 = .error () :=
  ⟨c6_alignment.1 bheap 0 (by decide) (by decide),
   c6_alignment.2 bheap 4100 0 (by decide) (by decide) (by decide) (by decide)⟩

/-- C7: capability selection returns the first array entry whose mask
contains the request (and no earlier entry qualifies); the runtime zone
searches the runtime array first, falls back to the buffer array, and
returns no heap, leaving the registry untouched, when neither array has a
qualifying entry. -/
theorem c7_capability_selection :
    (∀ (heaps : List mm_heap) (caps i : Nat),
      get_heap_from_caps heaps caps = some i →
        (heaps.getD i default).caps &&& caps = caps ∧
        ∀ j, j < i → (heaps.getD j default).caps &&& caps ≠ caps) ∧
    (∀ (mm : MM) (zone : Zone) (caps bytes i : Nat),
      get_heap_from_caps mm.runtime caps = some i →
      rmalloc_runtime mm zone caps bytes =
        ((get_ptr_from_heap (mm.runtime.getD i default) zone bytes).1,
         { mm with runtime := (mm.runtime.set i
             (get_ptr_from_heap (mm.runtime.getD i default) zone bytes).2) })) ∧
    (∀ (mm : MM) (zone : Zone) (caps bytes i : Nat),
      get_heap_from_caps mm.runtime caps = none →
      get_heap_from_caps mm.buffer caps = some i →
      rmalloc_runtime mm zone caps bytes =
        ((get_ptr_from_heap (mm.buffer.getD i default) zone bytes).1,
         { mm with buffer := (mm.buffer.set i
             (get_ptr_from_heap (mm.buffer.getD i default) zone bytes).2) })) ∧
    (∀ (mm : MM) (zone : Zone) (caps bytes : Nat),
      get_heap_from_caps mm.runtime caps = none →
      get_heap_from_caps mm.buffer caps = none →
      rmalloc_runtime mm zone caps bytes = (none, mm)) := by
  refine ⟨?_, ?_, ?_, ?_⟩
  · intro heaps
    induction heaps with
    | nil => intro caps i h; cases h
    | cons h t ih =>
      intro caps i hsome
      by_cases hc : h.caps &&& caps = caps
      · rw [get_heap_from_caps, if_pos hc] at hsome
        cases hsome
        exact ⟨hc, fun j hj => absurd hj (by omega)⟩
      · rw [get_heap_from_caps, if_neg hc] at hsome
        match ht : get_heap_from_caps t caps with
        | none => rw [ht] at hsome; cases hsome
        | some a =>
          rw [ht] at hsome
          dsimp only [Option.map] at hsome
          cases hsome
          obtain ⟨hca, hmin⟩ := ih caps a ht
          refine ⟨hca, ?_⟩
          intro j hj
          cases j with
          | zero => exact hc
          | succ n => exact hmin n (by omega)
  · intro mm zone caps bytes i h1
    unfold rmalloc_runtime
    rw [h1]
  · intro mm zone caps bytes i h1 h2
    unfold rmalloc_runtime
    rw [h1, h2]
  · intro mm zone caps bytes h1 h2
    unfold rmalloc_runtime
    rw [h1, h2]

/-- C7 witness: concrete selections from the runtime array, the buffer
fallback, and the no-heap case. -/
theorem c7_witness :
    ((c7mm.runtime.getD 0 default).caps &&& 0 = 0 ∧
      ∀ j, j < 0 → (c7mm.runtime.getD j default).caps &&& 0 ≠ 0) ∧
    rmalloc_runtime c7mm zrt 0 16 =
      ((get_ptr_from_heap (c7mm.runtime.getD 0 default) zrt 16).1,
       { c7mm with runtime := (c7mm.runtime.set 0
           (get_ptr_from_heap (c7mm.runtime.getD 0 default) zrt 16).2) }) ∧
    rmalloc_runtime bmm zrt 0 16 =
      ((get_ptr_from_heap (bmm.buffer.getD 0 default) zrt 16).1,
       { bmm with buffer := (bmm.buffer.set 0
           (get_ptr_from_heap (bmm.buffer.getD 0 default) zrt 16).2) }) ∧
    rmalloc_runtime c8mm zrt 5 9 = (none, c8mm) :=
  ⟨c7_capability_selection.1 c7mm.runtime 0 0 (by decide),
   c7_capability_selection.2.1 c7mm zrt 0 16 0 (by decide),
   c7_capability_selection.2.2.1 bmm zrt 0 16 0 (by decide) (by decide),
   c7_capability_selection.2.2.2 c8mm zrt 5 9 (by decide) (by decide)⟩

theorem single_round_trip (heap : mm_heap) (level : Nat)
    (hlev : level < heap.map.length)
    (hblen : (heap.map.getD level default).block.length = (heap.map.getD level default).count)
    (hff : (heap.map.getD level default).first_free < (heap.map.getD level default).count)
    (hfc : 0 < (heap.map.getD level default).free_count)
    (hbs : 0 < (heap.map.getD level default).block_size)
    (hfree : (heap.map.getD level default).block_size ≤ heap.info.free)
    (hfind : find_ptr_map (alloc_block heap level).2.map (alloc_block heap level).1
      = some level) :
    ∃ heap', free_block_in_heap (alloc_block heap level).2 (alloc_block heap level).1
        = .ok heap' ∧
      heap'.info = heap.info ∧
      (heap'.map.getD level default).free_count = (heap.map.getD level default).free_count := by
  have hab : alloc_block heap level =
      ((heap.map.getD level default).base +
         (heap.map.getD level default).first_free * (heap.map.getD level default).block_size,
       { heap with
         map := heap.map.set level
           { heap.map.getD level default with
             free_count := (heap.map.getD level default).free_count - 1,
             block := ((heap.map.getD level default).block.set
               (heap.map.getD level default).first_free ⟨1, 1⟩),
             first_free := next_first_free
               ((heap.map.getD level default).block.set
                 (heap.map.getD level default).first_free ⟨1, 1⟩)
               (heap.map.getD level default).count (heap.map.getD level default).first_free },
         info := { used := heap.info.used + (heap.map.getD level default).block_size,
                   free := heap.info.free - (heap.map.getD level default).block_size } }) := rfl
  have hm1 : (alloc_block heap level).2.map.getD level default =
      { heap.map.getD level default with
        free_count := (heap.map.getD level default).free_count - 1,
        block := ((heap.map.getD level default).block.set
          (heap.map.getD level default).first_free ⟨1, 1⟩),
        first_free := next_first_free
          ((heap.map.getD level default).block.set
            (heap.map.getD level default).first_free ⟨1, 1⟩)
          (heap.map.getD level default).count (heap.map.getD level default).first_free } :=
    list_getD_set_eq _ _ _ hlev
  have hbs1 : 0 < ((alloc_block heap level).2.map.getD level default).block_size := by
    rw [hm1]; exact hbs
  have hp1 : (alloc_block heap level).1 =
      ((alloc_block heap level).2.map.getD level default).base +
      ((alloc_block heap level).2.map.getD level default).block_size *
        (heap.map.getD level default).first_free := by
    rw [hm1, hab]
    dsimp only
    ring
  have hspec := free_block_in_heap_spec (alloc_block heap level).2 (alloc_block heap level).1
      level (heap.map.getD level default).first_free hfind hbs1 hp1
  dsimp only at hspec
  rw [hm1] at hspec
  have hhdr : (((heap.map.getD level default).block.set
      (heap.map.getD level default).first_free ⟨1, 1⟩).getD
      (heap.map.getD level default).first_free default) = ⟨1, 1⟩ :=
    list_getD_set_eq _ _ _ (by omega)
  rw [hhdr] at hspec
  dsimp only at hspec
  rw [show clear_blocks
      { heap.map.getD level default with
        free_count := (heap.map.getD level default).free_count - 1,
        block := ((heap.map.getD level default).block.set
          (heap.map.getD level default).first_free ⟨1, 1⟩),
        first_free := next_first_free
          ((heap.map.getD level default).block.set
            (heap.map.getD level default).first_free ⟨1, 1⟩)
          (heap.map.getD level default).count (heap.map.getD level default).first_free }
      (alloc_block heap level).2.info (heap.map.getD level default).first_free
      ((heap.map.getD level default).first_free + 1) =
    clear_aux
      { heap.map.getD level default with
        free_count := (heap.map.getD level default).free_count - 1,
        block := ((heap.map.getD level default).block.set
          (heap.map.getD level default).first_free ⟨1, 1⟩),
        first_free := next_first_free
          ((heap.map.getD level default).block.set
            (heap.map.getD level default).first_free ⟨1, 1⟩)
          (heap.map.getD level default).count (heap.map.getD level default).first_free }
      (alloc_block heap level).2.info (heap.map.getD level default).first_free 1 from by
    unfold clear_blocks
    rw [Nat.add_sub_cancel_left]] at hspec
  rw [clear_aux_spec] at hspec
  dsimp only at hspec
  rw [hab] at hspec
  dsimp only at hspec
  have e1 : (heap.map.getD level default).free_count - 1 + 1
      = (heap.map.getD level default).free_count := by omega
  have e2 : heap.info.used + (heap.map.getD level default).block_size -
      1 * (heap.map.getD level default).block_size = heap.info.used := by omega
  have e3 : heap.info.free - (heap.map.getD level default).block_size +
      1 * (heap.map.getD level default).block_size = heap.info.free := by omega
  rw [e1, e2, e3] at hspec
  refine ⟨_, hspec, rfl, ?_⟩
  rw [list_getD_set_eq _ _ _ (by rw [List.length_set]; exact hlev)]
  split <;> rfl

theorem span_count_pos (bytes bs : Nat) (h : 0 < bytes) : 0 < span_count bytes bs := by
  unfold span_count
  by_cases hm : bytes % bs ≠ 0
  · rw [if_pos hm]; exact Nat.succ_pos _
  · rw [if_neg hm]
    simp only [ne_eq, not_not] at hm
    rcases Nat.eq_zero_or_pos bs with hbs | hbs
    · subst hbs
      rw [Nat.mod_zero] at hm
      omega
    · have hdm := Nat.div_add_mod bytes bs
      rcases Nat.eq_zero_or_pos (bytes / bs) with hd | hd
    
      · rw [hd, hm, Nat.mul_zero] at hdm
        omega
      · exact hd

theorem clear_blocks_add (m : block_map) (info : mm_info) (i k : Nat) :
    clear_blocks m info i (i + k) = clear_aux m info i k := by
  unfold clear_blocks
  rw [Nat.add_sub_cancel_left]

theorem mark_used_length (blocks : List block_hdr) (c b : Nat) :
    (mark_used blocks c b).length = blocks.length := by
  unfold mark_used
  exact mark_used_aux_length _ _ _ _

theorem mark_used_getD_size (blocks : List block_hdr) (c b j : Nat) :
    ((mark_used blocks c b).getD j default).size = ((blocks.getD j default)).size := by
  unfold mark_used
  exact mark_used_aux_getD_size _ _ _ _ _

theorem span_round_trip (heap : mm_heap) (level bytes : Nat)
    (hlev : level < heap.map.length)
    (hblen : (heap.map.getD level default).block.length = (heap.map.getD level default).count)
    (hbs : 0 < (heap.map.getD level default).block_size)
    (hpos : 0 < bytes)
    (hguard : ¬ (span_count bytes (heap.map.getD level default).block_size >
        (heap.map.getD level default).count ∨
      count_unused (heap.map.getD level default).block (heap.map.getD level default).count
        (heap.map.getD level default).first_free <
        span_count bytes (heap.map.getD level default).block_size))
    (hfc : span_count bytes (heap.map.getD level default).block_size ≤
      (heap.map.getD level default).free_count)
    (hfree : span_count bytes (heap.map.getD level default).block_size *
      (heap.map.getD level default).block_size ≤ heap.info.free)
    (hspanend : (heap.map.getD level default).first_free +
      span_count bytes (heap.map.getD level default).block_size ≤
      (heap.map.getD level default).count)
    (hfind : find_ptr_map (alloc_cont_blocks heap level bytes).2.map
      ((heap.map.getD level default).base +
        (heap.map.getD level default).first_free * (heap.map.getD level default).block_size)
      = some level) :
    (alloc_cont_blocks heap level bytes).1 =
      some ((heap.map.getD level default).base +
        (heap.map.getD level default).first_free * (heap.map.getD level default).block_size) ∧
    ∃ heap2, free_block_in_heap (alloc_cont_blocks heap level bytes).2
        ((heap.map.getD level default).base +
          (heap.map.getD level default).first_free * (heap.map.getD level default).block_size)
        = .ok heap2 ∧
      heap2.info = heap.info ∧
      (heap2.map.getD level default).free_count = (heap.map.getD level default).free_count ∧
      ∀ j, (heap.map.getD level default).first_free ≤ j →
        j < (heap.map.getD level default).first_free +
          span_count bytes (heap.map.getD level default).block_size →
        ((heap2.map.getD level default).block.getD j default).used = 0 := by
  have hcs1 : 0 < span_count bytes (heap.map.getD level default).block_size :=
    span_count_pos _ _ hpos
  have hfflen : (heap.map.getD level default).first_free <
      (heap.map.getD level default).block.length := by omega
  have hacb : alloc_cont_blocks heap level bytes =
      (some ((heap.map.getD level default).base +
         (heap.map.getD level default).first_free * (heap.map.getD level default).block_size),
       { heap with
         map := heap.map.set level
           { heap.map.getD level default with
             free_count := (heap.map.getD level default).free_count -
               span_count bytes (heap.map.getD level default).block_size,
             block := mark_used
               ((heap.map.getD level default).block.set
                 (heap.map.getD level default).first_free
                 { (heap.map.getD level default).block.getD
                     (heap.map.getD level default).first_free default with
                   size := span_count bytes (heap.map.getD level default).block_size })
               (heap.map.getD level default).first_free
               (span_count bytes (heap.map.getD level default).block_size),
             first_free := (heap.map.getD level default).first_free +
               span_count bytes (heap.map.getD level default).block_size },
         info := { used := heap.info.used +
                     span_count bytes (heap.map.getD level default).block_size *
                     (heap.map.getD level default).block_size,
                   free := heap.info.free -
                     span_count bytes (heap.map.getD level default).block_size *
                     (heap.map.getD level default).block_size } }) := by
    unfold alloc_cont_blocks
    rw [if_neg hguard]
  have hm1 : (alloc_cont_blocks heap level bytes).2.map.getD level default =
      { heap.map.getD level default with
        free_count := (heap.map.getD level default).free_count -
          span_count bytes (heap.map.getD level default).block_size,
        block := mark_used
          ((heap.map.getD level default).block.set
            (heap.map.getD level default).first_free
            { (heap.map.getD level default).block.getD
                (heap.map.getD level default).first_free default with
              size := span_count bytes (heap.map.getD level default).block_size })
          (heap.map.getD level default).first_free
          (span_count bytes (heap.map.getD level default).block_size),
        first_free := (heap.map.getD level default).first_free +
          span_count bytes (heap.map.getD level default).block_size } := by
    rw [hacb]
    exact list_getD_set_eq _ _ _ hlev
  have hbs1 : 0 < ((alloc_cont_blocks heap level bytes).2.map.getD level default).block_size := by
    rw [hm1]; exact hbs
  have hp1 : (heap.map.getD level default).base +
      (heap.map.getD level default).first_free * (heap.map.getD level default).block_size =
      ((alloc_cont_blocks heap level bytes).2.map.getD level default).base +
      ((alloc_cont_blocks heap level bytes).2.map.getD level default).block_size *
        (heap.map.getD level default).first_free := by
    rw [hm1]
    dsimp only
    ring
  have hspec := free_block_in_heap_spec (alloc_cont_blocks heap level bytes).2
      ((heap.map.getD level default).base +
        (heap.map.getD level default).first_free * (heap.map.getD level default).block_size)
      level (heap.map.getD level default).first_free hfind hbs1 hp1
  dsimp only at hspec
  rw [hm1] at hspec
  dsimp only at hspec
  have hsz : ((mark_used
      ((heap.map.getD level default).block.set
        (heap.map.getD level default).first_free
        { (heap.map.getD level default).block.getD
            (heap.map.getD level default).first_free default with
          size := span_count bytes (heap.map.getD level default).block_size })
      (heap.map.getD level default).first_free
      (span_count bytes (heap.map.getD level default).block_size)).getD
      (heap.map.getD level default).first_free default).size =
      span_count bytes (heap.map.getD level default).block_size := by
    rw [mark_used_getD_size, list_getD_set_eq _ _ _ hfflen]
  rw [hsz] at hspec
  rw [clear_blocks_add] at hspec
  rw [clear_aux_spec] at hspec
  dsimp only at hspec
  rw [hacb] at hspec
  dsimp only at hspec
  have e1 : (heap.map.getD level default).free_count -
      span_count bytes (heap.map.getD level default).block_size +
      span_count bytes (heap.map.getD level default).block_size
      = (heap.map.getD level default).free_count := by omega
  have e2 : heap.info.used +
      span_count bytes (heap.map.getD level default).block_size *
        (heap.map.getD level default).block_size -
      span_count bytes (heap.map.getD level default).block_size *
        (heap.map.getD level default).block_size = heap.info.used := by omega
  have e3 : heap.info.free -
      span_count bytes (heap.map.getD level default).block_size *
        (heap.map.getD level default).block_size +
      span_count bytes (heap.map.getD level default).block_size *
        (heap.map.getD level default).block_size = heap.info.free := by omega
  rw [e1, e2, e3] at hspec
  rw [hacb]
  dsimp only
  refine ⟨rfl, _, hspec, rfl, ?_, ?_⟩
  · rw [list_getD_set_eq _ _ _ (by rw [List.length_set]; exact hlev)]
    split <;> rfl
  · intro j hj1 hj2
    rw [list_getD_set_eq _ _ _ (by rw [List.length_set]; exact hlev)]
    have hjlen : j < (mark_used
        ((heap.map.getD level default).block.set
          (heap.map.getD level default).first_free
          { (heap.map.getD level default).block.getD
              (heap.map.getD level default).first_free default with
            size := span_count bytes (heap.map.getD level default).block_size })
        (heap.map.getD level default).first_free
        (span_count bytes (heap.map.getD level default).block_size)).length := by
      rw [mark_used_length, List.length_set]
      omega
    split
    · dsimp only
      rw [clear_range_getD_in _ _ _ _ hj1 hj2 hjlen]
    · dsimp only
      rw [clear_range_getD_in _ _ _ _ hj1 hj2 hjlen]

/-- C4: allocating and then freeing the returned pointer is an exact round
trip on the bookkeeping.  For a single block, the map's free counter and
the heap's byte counters return exactly to their pre-allocation values;
for a contiguous span of `count` blocks, likewise, and the free clears all
`count` slots of the span back to free, driven only by the `size` recorded
in the head header.  (The hypotheses state the block-map well-formedness of
the pre-state and that free resolves the pointer back to the same map.) -/
theorem c4_round_trip :
    (∀ (heap : mm_heap) (level : Nat),
      level < heap.map.length →
      (heap.map.getD level default).block.length = (heap.map.getD level default).count →
      (heap.map.getD level default).first_free < (heap.map.getD level default).count →
      0 < (heap.map.getD level default).free_count →
      0 < (heap.map.getD level default).block_size →
      (heap.map.getD level default).block_size ≤ heap.info.free →
      find_ptr_map (alloc_block heap level).2.map (alloc_block heap level).1 = some level →
      ∃ heap', free_block_in_heap (alloc_block heap level).2 (alloc_block heap level).1
          = .ok heap' ∧
        heap'.info = heap.info ∧
        (heap'.map.getD level default).free_count
          = (heap.map.getD level default).free_count) ∧
    (∀ (heap : mm_heap) (level bytes : Nat),
      level < heap.map.length →
      (heap.map.getD level default).block.length = (heap.map.getD level default).count →
      0 < (heap.map.getD level default).block_size →
      0 < bytes →
      ¬ (span_count bytes (heap.map.getD level default).block_size >
          (heap.map.getD level default).count ∨
        count_unused (heap.map.getD level default).block (heap.map.getD level default).count
          (heap.map.getD level default).first_free <
          span_count bytes (heap.map.getD level default).block_size) →
      span_count bytes (heap.map.getD level default).block_size ≤
        (heap.map.getD level default).free_count →
      span_count bytes (heap.map.getD level default).block_size *
        (heap.map.getD level default).block_size ≤ heap.info.free →
      (heap.map.getD level default).first_free +
        span_count bytes (heap.map.getD level default).block_size ≤
        (heap.map.getD level default).count →
      find_ptr_map (alloc_cont_blocks heap level bytes).2.map
        ((heap.map.getD level default).base +
          (heap.map.getD level default).first_free * (heap.map.getD level default).block_size)
        = some level →
      (alloc_cont_blocks heap level bytes).1 =
        some ((heap.map.getD level default).base +
          (heap.map.getD level default).first_free *
            (heap.map.getD level default).block_size) ∧
      ∃ heap2, free_block_in_heap (alloc_cont_blocks heap level bytes).2
          ((heap.map.getD level default).base +
            (heap.map.getD level default).first_free *
              (heap.map.getD level default).block_size) = .ok heap2 ∧
        heap2.info = heap.info ∧
        (heap2.map.getD level default).free_count
          = (heap.map.getD level default).free_count ∧
        ∀ j, (heap.map.getD level default).first_free ≤ j →
          j < (heap.map.getD level default).first_free +
            span_count bytes (heap.map.getD level default).block_size →
          ((heap2.map.getD level default).block.getD j default).used = 0) :=
  ⟨fun heap level h1 h2 h3 h4 h5 h6 h7 =>
      single_round_trip heap level h1 h2 h3 h4 h5 h6 h7,
   fun heap level bytes h1 h2 h3 h4 h5 h6 h7 h8 h9 =>
      span_round_trip heap level bytes h1 h2 h3 h4 h5 h6 h7 h8 h9⟩

/-- C4 witness: the round trip on the four-block heap, for one 16-byte
block and for the Scenario-B three-block span (40 bytes). -/
theorem c4_witness :
    (∃ heap', free_block_in_heap (alloc_block bheap 0).2 (alloc_block bheap 0).1 = .ok heap' ∧
      heap'.info = bheap.info ∧
      (heap'.map.getD 0 default).free_count = (bheap.map.getD 0 default).free_count) ∧
    ((alloc_cont_blocks bheap 0 40).1 =
      some ((bheap.map.getD 0 default).base +
        (bheap.map.getD 0 default).first_free * (bheap.map.getD 0 default).block_size) ∧
    ∃ heap2, free_block_in_heap (alloc_cont_blocks bheap 0 40).2
        ((bheap.map.getD 0 default).base +
          (bheap.map.getD 0 default).first_free * (bheap.map.getD 0 default).block_size)
        = .ok heap2 ∧
      heap2.info = bheap.info ∧
      (heap2.map.getD 0 default).free_count = (bheap.map.getD 0 default).free_count ∧
      ∀ j, (bheap.map.getD 0 default).first_free ≤ j →
        j < (bheap.map.getD 0 default).first_free +
          span_count 40 (bheap.map.getD 0 default).block_size →
        ((heap2.map.getD 0 default).block.getD j default).used = 0) :=
  ⟨c4_round_trip.1 bheap 0 (by decide) (by decide) (by decide) (by decide) (by decide)
      (by decide) (by decide),
   c4_round_trip.2 bheap 0 40 (by decide) (by decide) (by decide) (by decide) (by decide)
      (by decide) (by decide) (by decide) (by decide)⟩

/-- C10: freeing a block-aligned pointer whose head header is already clear
(size = 0, used = 0) runs the clearing loop zero times: the free counter,
the heap byte counters and every block header are unchanged, and the only
effect is that the first-free hint may drop to the freed index. -/
theorem c10_aligned_double_free_benign (heap : mm_heap) (p level k : Nat)
    (hfind : find_ptr_map heap.map p = some level)
    (hbs : 0 < (heap.map.getD level default).block_size)
    (hp : p = (heap.map.getD level default).base + (heap.map.getD level default).block_size * k)
    (hhdr : (heap.map.getD level default).block.getD k default = ⟨0, 0⟩) :
    ∃ heap', free_block_in_heap heap p = .ok heap' ∧
      heap'.info = heap.info ∧
      (heap'.map.getD level default).free_count = (heap.map.getD level default).free_count ∧
      (heap'.map.getD level default).block = (heap.map.getD level default).block ∧
      (heap'.map.getD level default).first_free =
        (if k < (heap.map.getD level default).first_free then k
         else (heap.map.getD level default).first_free) ∧
      (∀ j, j ≠ level → heap'.map.getD j default = heap.map.getD j default) := by
  have hlev : level < heap.map.length := find_ptr_map_lt_length _ _ _ hfind
  have hspec := free_block_in_heap_spec heap p level k hfind hbs hp
  dsimp only at hspec
  rw [hhdr] at hspec
  dsimp only at hspec
  have hcb : clear_blocks (heap.map.getD level default) heap.info k (k + 0)
      = (heap.map.getD level default, heap.info) := by
    rw [clear_blocks_add]
    rfl
  rw [hcb] at hspec
  dsimp only at hspec
  refine ⟨_, hspec, rfl, ?_, ?_, ?_, ?_⟩
  · rw [list_getD_set_eq _ _ _ hlev]
    split <;> rfl
  · rw [list_getD_set_eq _ _ _ hlev]
    split <;> rfl
  · rw [list_getD_set_eq _ _ _ hlev]
    split <;> rfl
  · intro j hj
    exact list_getD_set_ne _ _ _ _ (fun he => hj he.symm)

/-- C10 witness: on the all-free four-block heap, freeing base+16 (whose
header is clear) changes nothing except lowering nothing (hint already 0). -/
theorem c10_witness :
    ∃ heap', free_block_in_heap bheap 4112 = .ok heap' ∧
      heap'.info = bheap.info ∧
      (heap'.map.getD 0 default).free_count = (bheap.map.getD 0 default).free_count ∧
      (heap'.map.getD 0 default).block = (bheap.map.getD 0 default).block ∧
      (heap'.map.getD 0 default).first_free =
        (if 1 < (bheap.map.getD 0 default).first_free then 1
         else (bheap.map.getD 0 default).first_free) ∧
      (∀ j, j ≠ 0 → heap'.map.getD j default = bheap.map.getD j default) :=
  c10_aligned_double_free_benign bheap 4112 0 1 (by decide) (by decide) (by decide) (by decide)

/-- C8: when the fresh allocation fails, both reallocate variants return
null, do not free the old pointer, and leave every heap and the memory
contents unchanged (the system/runtime variant only raises the trace dirty
flag, as every malloc call does). -/
theorem c8_failed_realloc :
    (∀ (mm : MM) (core p : Nat) (zone : Zone) (caps bytes : Nat) (mm1 : MM),
      bytes ≠ 0 →
      _malloc_unlocked mm core zone caps bytes = .ok (none, mm1) →
      _realloc mm core (some p) zone caps bytes = .ok (none, mm1) ∧
      mm1.system = mm.system ∧ mm1.system_runtime = mm.system_runtime ∧
      mm1.runtime = mm.runtime ∧ mm1.buffer = mm.buffer ∧ mm1.mem = mm.mem) ∧
    (∀ (mm : MM) (core p : Nat) (zone : Zone) (caps bytes : Nat) (mm2 : MM),
      bytes ≠ 0 →
      _balloc_unlocked mm zone caps bytes = (none, mm2) →
      _brealloc mm core (some p) zone caps bytes = .ok (none, mm2) ∧ mm2 = mm) := by
  constructor
  · intro mm core p zone caps bytes mm1 hb hm
    have hre : _realloc mm core (some p) zone caps bytes = .ok (none, mm1) := by
      unfold _realloc
      rw [if_neg hb, hm]
      rfl
    have hflag := malloc_unlocked_none mm core zone caps bytes mm1 hm
    exact ⟨hre, by rw [hflag]; rfl, by rw [hflag]; rfl, by rw [hflag]; rfl, by rw [hflag]; rfl, by rw [hflag]; rfl⟩
  · intro mm core p zone caps bytes mm2 hb hbal
    have hbe : _brealloc mm core (some p) zone caps bytes = .ok (none, mm2) := by
      unfold _brealloc
      rw [if_neg hb, hbal]
    exact ⟨hbe, balloc_unlocked_none _ _ _ _ _ hbal⟩

/-- C8 witness: on an empty registry every allocation fails; realloc of a
non-null pointer with one byte returns null and leaves the state as it
was (modulo the trace flag for the malloc variant). -/
theorem c8_witness :
    (_realloc c8mm 0 (some 7) zrt 0 1 = .ok (none, set_trace_flag c8mm) ∧
      (set_trace_flag c8mm).system = c8mm.system ∧
      (set_trace_flag c8mm).system_runtime = c8mm.system_runtime ∧
      (set_trace_flag c8mm).runtime = c8mm.runtime ∧
      (set_trace_flag c8mm).buffer = c8mm.buffer ∧
      (set_trace_flag c8mm).mem = c8mm.mem) ∧
    (_brealloc c8mm 0 (some 7) zrt 0 1 = .ok (none, c8mm) ∧ c8mm = c8mm) :=
  ⟨c8_failed_realloc.1 c8mm 0 7 zrt 0 1 (set_trace_flag c8mm) (by decide) rfl,
   c8_failed_realloc.2 c8mm 0 7 zrt 0 1 c8mm (by decide) rfl⟩
